import Mathlib

/-!
Verification of the 911der dispatch backend: a shallow embedding of the
voice-bridge layer (`backend/voice_agent.py`), the emergency classifier
(`backend/emergency_classifier.py`) and the greeting generator
(`backend/groq_inference/summarize.py`), together with proofs about the
sanitizer, the frame buffer, the conversation-context window, the
classifier defaults and the relay loops.

Strings are modelled as Lean `String`/`List Char` restricted to the ASCII
whitespace classes used by the transport's JSON payloads; audio bytes are
modelled as `Nat`; fallible external calls are modelled as `Except` values
handed to the pure core.
-/

namespace VoiceAgent

/-! ## Python string helpers -/

/-- Backquote character, one of the symbol classes stripped by the sanitizer. -/
def backquoteChar : Char := Char.ofNat 96

/-- Left brace character. -/
def lbraceChar : Char := Char.ofNat 123

/-- Right brace character. -/
def rbraceChar : Char := Char.ofNat 125

/-- Vertical-tab character, part of the regex whitespace class. -/
def vtabChar : Char := Char.ofNat 11

/-- Form-feed character, part of the regex whitespace class. -/
def ffChar : Char := Char.ofNat 12

/-- The whitespace class matched by the regex escape for whitespace and by
Python's no-argument strip, restricted to ASCII. -/
def py_space (c : Char) : Bool :=
  c = ' ' || c = '\t' || c = '\n' || c = '\r' || c = vtabChar || c = ffChar

/-- Newline test, the class matched by the newline-run substitution. -/
def is_newline (c : Char) : Bool := c = '\n'

/-- Python str.strip with no argument: drop leading and trailing whitespace. -/
def py_strip_list (l : List Char) : List Char :=
  ((l.dropWhile py_space).reverse.dropWhile py_space).reverse

/-- Python str.strip on a whole string. -/
def py_strip (s : String) : String := String.mk (py_strip_list s.data)

/-- Python str.upper, restricted to ASCII letters: uppercase each character. -/
def py_upper (s : String) : String := String.mk (s.data.map Char.toUpper)

/-- Python truthiness of an optional string: None and the empty string are falsy. -/
def py_truthy : Option String → Bool
  | none => false
  | some s => if s = "" then false else true

/-! ## TranscriptTextSanitizer (`DeepgramVoiceAgent._clean_voice_text`) -/

/-- Replace every maximal run of characters satisfying `p` by a single space,
as the substitution of a one-or-more character class by one space does.  The
boolean argument records whether the previous character was part of a run. -/
def collapseRuns (p : Char → Bool) : List Char → Bool → List Char
  | [], _ => []
  | c :: rest, inRun =>
    if p c then
      if inRun then collapseRuns p rest true
      else ' ' :: collapseRuns p rest true
    else c :: collapseRuns p rest false

/-- The first seven substitutions of the sanitizer, one filter per stage.
Substituting the empty string for every maximal run of a character class
deletes every character of the class, so each stage is a filter. -/
def strip_symbols (text : List Char) : List Char :=
  ((((((text.filter (fun c => !(c = '*'))).filter
    (fun c => !(c = '_'))).filter
    (fun c => !(c = backquoteChar))).filter
    (fun c => !(c = '#'))).filter
    (fun c => !(c = '[' || c = ']'))).filter
    (fun c => !(c = '(' || c = ')'))).filter
    (fun c => !(c = lbraceChar || c = rbraceChar))

/-- The sanitizer on character lists, one stage per substitution of the
source: seven symbol-deleting substitutions, the newline-run substitution,
the whitespace-run substitution, then the final strip. -/
def clean_list (text : List Char) : List Char :=
  py_strip_list (collapseRuns py_space (collapseRuns is_newline (strip_symbols text) false) false)

/-- `DeepgramVoiceAgent._clean_voice_text`: strip formatting characters,
collapse newline runs and whitespace runs to single spaces, then strip. -/
def clean_voice_text (text : String) : String := String.mk (clean_list text.data)

/-- The characters deleted by the sanitizer's filter stages. -/
def badChar (c : Char) : Bool :=
  c = '*' || c = '_' || c = backquoteChar || c = '#' || c = '[' || c = ']' ||
    c = '(' || c = ')' || c = lbraceChar || c = rbraceChar

/-- Adjacent-character relation forbidding two whitespace characters in a row. -/
def noTwoSpaces (a b : Char) : Prop := ¬(py_space a = true ∧ py_space b = true)

instance : DecidableRel noTwoSpaces := fun _ _ => instDecidableNot

/-- Sanitized normal form: no stripped symbols, every whitespace character is
a plain space, no two adjacent whitespace characters, and no leading or
trailing whitespace. -/
def Normalized (l : List Char) : Prop :=
  (∀ c ∈ l, badChar c = false) ∧
  (∀ c ∈ l, py_space c = true → c = ' ') ∧
  List.Chain' noTwoSpaces l ∧
  l.dropWhile py_space = l ∧
  l.reverse.dropWhile py_space = l.reverse

/-! ## ConversationMemory (`conversation_history`, `_get_conversation_context`) -/

/-- One recorded conversation turn: a role and sanitized content. -/
structure Turn where
  role : String
  content : String
deriving DecidableEq, Repr

/-- `DeepgramVoiceAgent._add_to_conversation_history`: clean the content and
append the turn to the stored log. -/
def add_to_conversation_history (history : List Turn) (role content : String) : List Turn :=
  history ++ [⟨role, clean_voice_text content⟩]

/-- The synthetic leading turn built from the call's initial transcript when
that transcript is truthy. -/
def initial_context (call_transcript : Option String) : List Turn :=
  match call_transcript with
  | none => []
  | some t =>
    if t = "" then []
    else [⟨"user", "Initial emergency description: " ++ clean_voice_text t⟩]

/-- `DeepgramVoiceAgent._get_conversation_context`: the optional initial turn
followed by the last ten recorded turns (a Python slice of the last ten
elements is `drop (length - 10)`).  The stored log is not modified. -/
def get_conversation_context (call_transcript : Option String) (history : List Turn) :
    List Turn :=
  initial_context call_transcript ++ history.drop (history.length - 10)

/-! ## Greeting generation (`summarize.py` and `_generate_personalized_greeting`) -/

/-- The fixed fallback greeting used on every failure path. -/
def default_greeting : String := "Hello, how can I help with your emergency?"

/-- `groq_inference.summarize.generate_personalized_greeting`: the external
chat call either raises (caught, default returned), returns no content
(default returned), or returns content which is stripped. -/
def groq_generate_personalized_greeting (api_result : Except String (Option String)) :
    String :=
  match api_result with
  | .error _ => default_greeting
  | .ok none => default_greeting
  | .ok (some content) => py_strip content

/-- `DeepgramVoiceAgent._generate_personalized_greeting`: a falsy transcript
short-circuits to the default greeting without calling the reasoning service;
otherwise the service call runs (its own failures already mapped to the
default by the inner function), the result is sanitized, and any exception
escaping the call is caught and mapped to the default. -/
def generate_personalized_greeting (call_transcript : Option String)
    (api_result : Except String (Except String (Option String))) : String :=
  match call_transcript with
  | none => default_greeting
  | some t =>
    if t = "" then default_greeting
    else
      match api_result with
      | .error _ => default_greeting
      | .ok inner => clean_voice_text (groq_generate_personalized_greeting inner)

/-! ## EmergencyClassifier (`emergency_classifier.py`) -/

/-- The dictionary returned by `EmergencyClassifier.classify_call`. -/
structure ClassificationResult where
  is_emergency : Bool
  classification : String
  transcript : String
  confidence : String
  error : Option String
deriving DecidableEq, Repr

/-- `EmergencyClassifier.classify_call`: the chain call either returns a
response string (stripped and uppercased, then compared with the two
recognized labels) or raises, in which case the emergency default is
returned. -/
def classify_call (transcript : String) (response : Except String String) :
    ClassificationResult :=
  match response with
  | .ok content =>
    let classification := py_upper (py_strip content)
    { is_emergency := classification == "EMERGENCY"
      classification := classification
      transcript := transcript
      confidence :=
        if classification = "EMERGENCY" ∨ classification = "NON_EMERGENCY" then "high"
        else "low"
      error := none }
  | .error e =>
    { is_emergency := true
      classification := "EMERGENCY"
      transcript := transcript
      confidence := "low"
      error := some e }

/-! ## The initial configuration message (`twilio_handler`, lines 102-159) -/

/-- Minimal JSON model for the configuration payload. -/
inductive Json where
  | str (s : String)
  | num (q : ℚ)
  | arr (elems : List Json)
  | obj (fields : List (String × Json))

/-- Look a key up in a JSON object. -/
def Json.lookup : Json → String → Option Json
  | .obj fields, key => (fields.find? (fun p => p.1 = key)).map (fun p => p.2)
  | _, _ => none

/-- The transcript text spliced into the think prompt: the transcript when
truthy, else the fixed placeholder, as the Python or-expression evaluates. -/
def prompt_transcript (call_transcript : Option String) : String :=
  match call_transcript with
  | none => "No initial description provided"
  | some t => if t = "" then "No initial description provided" else t

/-- Opening of the think prompt, up to the spliced transcript. -/
def prompt_head : String :=
  "You are a helpful emergency dispatch assistant. The caller described: \""

/-- Remainder of the think prompt after the spliced transcript. -/
def prompt_tail : String :=
  "\"\n\n                        Guidelines:\n                        - Speak naturally and kindly\n                        - Keep responses brief and clear\n                        - Reference their situation when helpful\n                        - Provide specific, actionable guidance\n                        - Remember conversation details\n                        - If they mention life-threatening emergencies, immediately tell them to hang up and call 911 directly\n\n                        Always respond with plain text only - no formatting, asterisks, or special characters. Speak as if talking directly to someone on the phone."

/-- The full think prompt of the configuration message. -/
def think_prompt (call_transcript : Option String) : String :=
  prompt_head ++ prompt_transcript call_transcript ++ prompt_tail

/-- Keyterms of the listening-model selector. -/
def listen_keyterms : List Json :=
  [.str "emergency", .str "help", .str "police", .str "fire", .str "ambulance",
    .str "urgent"]

/-- The single initial configuration message sent to the speech backend.  The
conversation context is assembled by the caller and passed in, but the
source's `"context"` field is commented out, so the parameter is not used:
no context field appears in the message. -/
def config_message (call_transcript : Option String) (conversation_context : List Turn)
    (greeting_message : String) : Json :=
  Json.obj [
    ("type", .str "Settings"),
    ("audio", .obj [
      ("input", .obj [("encoding", .str "mulaw"), ("sample_rate", .num 8000)]),
      ("output", .obj [("encoding", .str "mulaw"), ("sample_rate", .num 8000),
        ("container", .str "none")])]),
    ("agent", .obj [
      ("language", .str "en"),
      ("listen", .obj [("provider", .obj [("type", .str "deepgram"),
        ("model", .str "nova-3"), ("keyterms", .arr listen_keyterms)])]),
      ("think", .obj [("provider", .obj [("type", .str "open_ai"),
        ("model", .str "gpt-4o-mini"), ("temperature", .num (7 / 10))]),
        ("prompt", .str (think_prompt call_transcript))]),
      ("speak", .obj [("provider", .obj [("type", .str "deepgram"),
        ("model", .str "aura-2-thalia-en")])]),
      ("greeting", .str greeting_message)])]

/-! ## FrameBuffer (`_twilio_receiver`, lines 214-247) -/

/-- Twilio sends 160-byte frames; twenty are buffered per chunk. -/
def BUFFER_SIZE : Nat := 20 * 160

/-- The draining while-loop: as long as a full chunk is buffered, emit the
first `BUFFER_SIZE` bytes and keep the rest.  The fuel argument only bounds
the iteration count so the recursion is structural; `drain_buffer` supplies
enough fuel for the loop to run to completion. -/
def drain_go : Nat → List Nat → List (List Nat) × List Nat
  | 0, buf => ([], buf)
  | fuel + 1, buf =>
    if BUFFER_SIZE ≤ buf.length then
      let r := drain_go fuel (buf.drop BUFFER_SIZE)
      (buf.take BUFFER_SIZE :: r.1, r.2)
    else ([], buf)

/-- Drain the inbound buffer: the emitted chunks and the remaining bytes. -/
def drain_buffer (buf : List Nat) : List (List Nat) × List Nat :=
  drain_go buf.length buf

/-- Append a sequence of byte spans to the frame buffer, draining after each
append as the receiver loop does; returns all emitted chunks and the final
buffer contents. -/
def process_spans : List (List Nat) → List Nat → List (List Nat) × List Nat
  | [], buf => ([], buf)
  | s :: rest, buf =>
    let d := drain_buffer (buf ++ s)
    let r := process_spans rest d.2
    (d.1 ++ r.1, r.2)

/-! ## Telephony inbound relay (`_twilio_receiver`) -/

/-- A parsed Twilio stream envelope. -/
inductive TwilioEnvelope where
  | start (streamSid : String)
  | connected
  | media (track : String) (payload : List Nat)
  | stop
  | other (event : String)
deriving DecidableEq, Repr

/-- A raw transport message: either it parses to an envelope carrying the
fields the handler reads, or any of those accesses raises (not JSON, missing
event, missing start or media fields), which the handler's except-clause
catches. -/
inductive TwilioMsg where
  | malformed
  | envelope (e : TwilioEnvelope)
deriving DecidableEq, Repr

/-- Result of running the telephony inbound relay: stream ids published to
the session-id queue, audio chunks forwarded to the backend audio queue, and
the bytes still buffered when the loop ended. -/
structure ReceiverOut where
  sids : List String
  chunks : List (List Nat)
  buffer : List Nat
deriving DecidableEq, Repr

/-- `DeepgramVoiceAgent._twilio_receiver`: a start envelope publishes its
stream id; a connected envelope continues without draining; an inbound media
envelope appends its payload; a stop envelope breaks; an unrecognized
envelope falls through to the drain; a malformed message raises, is caught,
and breaks the loop. -/
def twilio_receiver : List TwilioMsg → List Nat → ReceiverOut
  | [], buf => ⟨[], [], buf⟩
  | m :: rest, buf =>
    match m with
    | .malformed => ⟨[], [], buf⟩
    | .envelope .stop => ⟨[], [], buf⟩
    | .envelope .connected => twilio_receiver rest buf
    | .envelope (.start sid) =>
      let d := drain_buffer buf
      let r := twilio_receiver rest d.2
      ⟨sid :: r.sids, d.1 ++ r.chunks, r.buffer⟩
    | .envelope (.media track payload) =>
      let d := drain_buffer (if track = "inbound" then buf ++ payload else buf)
      let r := twilio_receiver rest d.2
      ⟨r.sids, d.1 ++ r.chunks, r.buffer⟩
    | .envelope (.other _) =>
      let d := drain_buffer buf
      let r := twilio_receiver rest d.2
      ⟨r.sids, d.1 ++ r.chunks, r.buffer⟩

/-! ## Backend event relay and the combined bridge (`_sts_receiver`) -/

/-- A parsed text message from the speech backend: the barge-in event, a
turn-completion event carrying role and content (absent fields default to
assistant and empty), any other recognized JSON, or a string that fails to
parse (the exception is caught and the message skipped). -/
inductive StsText where
  | userStartedSpeaking
  | conversationText (role content : String)
  | otherType
  | unparseable
deriving DecidableEq, Repr

/-- A message from the speech backend: a text frame or raw audio bytes. -/
inductive StsMsg where
  | text (t : StsText)
  | audio (payload : List Nat)
deriving DecidableEq, Repr

/-- An outbound envelope sent to the transport.  The media payload field
stands for the bytes that the source base64-encodes at serialization. -/
inductive TwilioOut where
  | clear (streamSid : String)
  | media (streamSid : String) (payload : List Nat)
deriving DecidableEq, Repr

/-- The stream id carried by an outbound envelope. -/
def TwilioOut.sid : TwilioOut → String
  | .clear s => s
  | .media s _ => s

/-- Handling of one backend message once the stream id is known: barge-in
sends one clear envelope, a turn-completion event with nonempty content is
recorded in the conversation history, audio is wrapped in a media envelope,
everything else is ignored. -/
def process_sts_msg (streamsid : String) (history : List Turn) :
    StsMsg → List Turn × List TwilioOut
  | .text .userStartedSpeaking => (history, [.clear streamsid])
  | .text (.conversationText role content) =>
    (if content = "" then history else add_to_conversation_history history role content, [])
  | .text .otherType => (history, [])
  | .text .unparseable => (history, [])
  | .audio payload => (history, [.media streamsid payload])

/-- Process, in arrival order, the backend messages that were delivered while
the receiver was still waiting on the stream-id queue. -/
def flush_pending (streamsid : String) : List Turn → List StsMsg → List Turn × List TwilioOut
  | history, [] => (history, [])
  | history, m :: rest =>
    let r := process_sts_msg streamsid history m
    let k := flush_pending streamsid r.1 rest
    (k.1, r.2 ++ k.2)

/-- State of one call's bridge: the write-once stream-id slot, the backend
messages buffered while that slot is empty, the conversation history, the
inbound byte buffer, and whether the telephony loop has ended. -/
structure BridgeState where
  streamsid : Option String
  pending : List StsMsg
  history : List Turn
  buffer : List Nat
  twilioStopped : Bool
deriving DecidableEq, Repr

/-- Bridge state at session start. -/
def initial_bridge_state : BridgeState :=
  { streamsid := none, pending := [], history := [], buffer := [], twilioStopped := false }

/-- One unit of work delivered to the bridge, from either peer. -/
inductive BridgeInput where
  | fromTwilio (m : TwilioMsg)
  | fromSts (m : StsMsg)
deriving DecidableEq, Repr

/-- The telephony side of one bridge step.  Emitted audio chunks go to the
backend audio queue and are not transport outputs, so only the buffer update
is kept here; a start envelope fills the stream-id slot exactly once and
releases the buffered backend messages. -/
def twilio_step (st : BridgeState) (m : TwilioMsg) : BridgeState × List TwilioOut :=
  if st.twilioStopped then (st, [])
  else
    match m with
    | .malformed => ({ st with twilioStopped := true }, [])
    | .envelope .stop => ({ st with twilioStopped := true }, [])
    | .envelope .connected => (st, [])
    | .envelope (.start sid) =>
      let d := drain_buffer st.buffer
      match st.streamsid with
      | none =>
        let f := flush_pending sid st.history st.pending
        ({ st with streamsid := some sid, pending := [], history := f.1, buffer := d.2 },
          f.2)
      | some _ => ({ st with buffer := d.2 }, [])
    | .envelope (.media track payload) =>
      let d := drain_buffer (if track = "inbound" then st.buffer ++ payload else st.buffer)
      ({ st with buffer := d.2 }, [])
    | .envelope (.other _) =>
      let d := drain_buffer st.buffer
      ({ st with buffer := d.2 }, [])

/-- One bridge step: a telephony message goes to the telephony side; a
backend message is buffered while the stream id is unknown and handled
immediately once it is known. -/
def bridge_step (st : BridgeState) : BridgeInput → BridgeState × List TwilioOut
  | .fromTwilio m => twilio_step st m
  | .fromSts m =>
    match st.streamsid with
    | none => ({ st with pending := st.pending ++ [m] }, [])
    | some sid =>
      let r := process_sts_msg sid st.history m
      ({ st with history := r.1 }, r.2)

/-- Run the bridge over an interleaved input sequence, returning the final state. -/
def bridge_run (st : BridgeState) : List BridgeInput → BridgeState
  | [] => st
  | i :: rest => bridge_run (bridge_step st i).1 rest

/-- Run the bridge over an interleaved input sequence, returning the transport
outputs produced while handling each input, in order. -/
def bridge_outputs (st : BridgeState) : List BridgeInput → List (List TwilioOut)
  | [] => []
  | i :: rest => (bridge_step st i).2 :: bridge_outputs (bridge_step st i).1 rest

/-! ## Sanitizer lemmas -/

/-- Characters of a collapsed list are spaces or non-class characters of the input. -/
theorem collapseRuns_mem {p : Char → Bool} {c : Char} :
    ∀ (l : List Char) (b : Bool), c ∈ collapseRuns p l b → c = ' ' ∨ (c ∈ l ∧ p c = false) := by
  intro l
  induction l with
  | nil => intro b h; simp [collapseRuns] at h
  | cons d rest ih =>
    intro b h
    cases hd : p d with
    | true =>
      cases b with
      | true =>
        simp only [collapseRuns, hd, if_true] at h
        rcases ih true h with h1 | ⟨h2, h3⟩
        · exact Or.inl h1
        · exact Or.inr ⟨List.mem_cons_of_mem d h2, h3⟩
      | false =>
        simp only [collapseRuns, hd, if_true] at h
        rcases List.mem_cons.mp h with h1 | h1
        · exact Or.inl h1
        · rcases ih true h1 with h2 | ⟨h3, h4⟩
          · exact Or.inl h2
          · exact Or.inr ⟨List.mem_cons_of_mem d h3, h4⟩
    | false =>
      simp only [collapseRuns, hd, Bool.false_eq_true, if_false] at h
      rcases List.mem_cons.mp h with h1 | h1
      · subst h1; exact Or.inr ⟨List.mem_cons_self c rest, hd⟩
      · rcases ih false h1 with h2 | ⟨h3, h4⟩
        · exact Or.inl h2
        · exact Or.inr ⟨List.mem_cons_of_mem d h3, h4⟩

/-- After an open run, the collapsed list starts with a non-class character. -/
theorem collapseRuns_head_true {p : Char → Bool} :
    ∀ (l : List Char) (d : Char), (collapseRuns p l true).head? = some d → p d = false := by
  intro l
  induction l with
  | nil => intro d h; simp [collapseRuns] at h
  | cons c rest ih =>
    intro d h
    cases hc : p c with
    | true => simp only [collapseRuns, hc, if_true] at h; exact ih d h
    | false =>
      simp only [collapseRuns, hc, Bool.false_eq_true, if_false, List.head?_cons,
        Option.some_inj] at h
      subst h; exact hc

/-- A collapsed list never contains two adjacent class characters. -/
theorem collapseRuns_chain' {p : Char → Bool} :
    ∀ (l : List Char) (b : Bool),
      List.Chain' (fun a d => ¬(p a = true ∧ p d = true)) (collapseRuns p l b) := by
  intro l
  induction l with
  | nil => intro b; simp [collapseRuns]
  | cons c rest ih =>
    intro b
    cases hc : p c with
    | true =>
      cases b with
      | true => simpa only [collapseRuns, hc, if_true] using ih true
      | false =>
        simp only [collapseRuns, hc, if_true]
        refine List.chain'_cons'.mpr ⟨?_, ih true⟩
        intro d hd hcontra
        exact absurd (collapseRuns_head_true rest d hd) (by simp [hcontra.2])
    | false =>
      simp only [collapseRuns, hc, Bool.false_eq_true, if_false]
      refine List.chain'_cons'.mpr ⟨?_, ih false⟩
      intro d _ hcontra
      exact absurd hc (by simp [hcontra.1])

/-- Collapsing a list containing no class character changes nothing. -/
theorem collapseRuns_id_of_not {p : Char → Bool} :
    ∀ (l : List Char) (b : Bool), (∀ c ∈ l, p c = false) → collapseRuns p l b = l := by
  intro l
  induction l with
  | nil => intro b _; simp [collapseRuns]
  | cons c rest ih =>
    intro b hnone
    have hc : p c = false := hnone c (List.mem_cons_self c rest)
    simp only [collapseRuns, hc, Bool.false_eq_true, if_false, List.cons.injEq, true_and]
    exact ih false (fun d hd => hnone d (List.mem_cons_of_mem c hd))

/-- Collapsing is the identity on a list whose class characters are single
plain spaces, provided an open run is not pending against its head. -/
theorem collapseRuns_id_of_chain {p : Char → Bool} :
    ∀ (l : List Char) (b : Bool),
      (∀ c ∈ l, p c = true → c = ' ') →
      List.Chain' (fun a d => ¬(p a = true ∧ p d = true)) l →
      (b = true → ∀ c, l.head? = some c → p c = false) →
      collapseRuns p l b = l := by
  intro l
  induction l with
  | nil => intro b _ _ _; simp [collapseRuns]
  | cons c rest ih =>
    intro b hsp hch hflag
    cases hc : p c with
    | true =>
      cases b with
      | true => exact absurd (hflag rfl c rfl) (by simp [hc])
      | false =>
        have hcsp : c = ' ' := hsp c (List.mem_cons_self c rest) hc
        simp only [collapseRuns, hc, if_true, Bool.false_eq_true, if_false, ← hcsp,
          List.cons.injEq, true_and]
        refine ih true (fun d hd hpd => hsp d (List.mem_cons_of_mem c hd) hpd) hch.tail ?_
        intro _ d hd
        cases hpd : p d with
        | true =>
          exact absurd ((List.chain'_cons'.mp hch).1 d hd) (by simp [hc, hpd])
        | false => rfl
    | false =>
      simp only [collapseRuns, hc, Bool.false_eq_true, if_false, List.cons.injEq, true_and]
      exact ih false (fun d hd hpd => hsp d (List.mem_cons_of_mem c hd) hpd) hch.tail
        (by intro hfalse; exact absurd hfalse (by simp))

/-- Dropping a satisfied predicate leaves a list whose head fails it. -/
theorem head_dropWhile {p : Char → Bool} :
    ∀ (l : List Char) (c : Char), (l.dropWhile p).head? = some c → p c = false := by
  intro l
  induction l with
  | nil => intro c h; simp [List.dropWhile] at h
  | cons d rest ih =>
    intro c h
    cases hd : p d with
    | true => rw [List.dropWhile_cons, if_pos (by simp [hd])] at h; exact ih c h
    | false =>
      rw [List.dropWhile_cons, if_neg (by simp [hd]), List.head?_cons,
        Option.some_inj] at h
      subst h; exact hd

/-- A list whose head fails the predicate is unchanged by dropWhile. -/
theorem dropWhile_id_of_head {p : Char → Bool} (l : List Char)
    (h : ∀ c, l.head? = some c → p c = false) : l.dropWhile p = l := by
  cases l with
  | nil => rfl
  | cons c rest => rw [List.dropWhile_cons, if_neg (by simp [h c rfl])]

/-- Membership survives dropWhile backwards. -/
theorem mem_dropWhile {p : Char → Bool} :
    ∀ (l : List Char) (c : Char), c ∈ l.dropWhile p → c ∈ l := by
  intro l
  induction l with
  | nil => intro c h; simp [List.dropWhile] at h
  | cons d rest ih =>
    intro c h
    cases hd : p d with
    | true =>
      rw [List.dropWhile_cons, if_pos (by simp [hd])] at h
      exact List.mem_cons_of_mem d (ih c h)
    | false =>
      rw [List.dropWhile_cons, if_neg (by simp [hd])] at h
      exact h

/-- Chains are preserved by dropWhile. -/
theorem chain'_dropWhile {R : Char → Char → Prop} {p : Char → Bool} :
    ∀ (l : List Char), List.Chain' R l → List.Chain' R (l.dropWhile p) := by
  intro l
  induction l with
  | nil => intro h; exact h
  | cons d rest ih =>
    intro h
    cases hd : p d with
    | true => rw [List.dropWhile_cons, if_pos (by simp [hd])]; exact ih h.tail
    | false => rw [List.dropWhile_cons, if_neg (by simp [hd])]; exact h

/-- Chains over a symmetric relation are preserved by reversal. -/
theorem chain'_reverse_of_symm {R : Char → Char → Prop}
    (hs : ∀ a b, R a b → R b a) (l : List Char) (h : List.Chain' R l) :
    List.Chain' R l.reverse :=
  List.chain'_reverse.mpr (List.Chain'.imp (fun a b hab => hs a b hab) h)

/-- Head of an append with a nonempty left part. -/
theorem head?_append_of_ne_nil {α : Type} (l l' : List α) (h : l ≠ []) :
    (l ++ l').head? = l.head? := by
  cases l with
  | nil => exact absurd rfl h
  | cons a rest => rfl

/-- Dropping from the front does not change the last element, seen through
reversal, as long as something remains. -/
theorem rev_head_dropWhile {p : Char → Bool} :
    ∀ (l : List Char), l.dropWhile p ≠ [] →
      ((l.dropWhile p).reverse).head? = l.reverse.head? := by
  intro l
  induction l with
  | nil => intro h; exact absurd rfl h
  | cons d rest ih =>
    intro h
    cases hd : p d with
    | true =>
      rw [List.dropWhile_cons, if_pos (by simp [hd])] at h ⊢
      have hrest : rest ≠ [] := by
        intro hnil; subst hnil; simp [List.dropWhile] at h
      have hrev : rest.reverse ≠ [] := by simpa using hrest
      rw [ih h, List.reverse_cons, head?_append_of_ne_nil rest.reverse [d] hrev]
    | false => rw [List.dropWhile_cons, if_neg (by simp [hd])]

/-- Membership survives the final strip backwards. -/
theorem mem_py_strip {c : Char} {l : List Char} (h : c ∈ py_strip_list l) : c ∈ l := by
  unfold py_strip_list at h
  rw [List.mem_reverse] at h
  have h2 := mem_dropWhile _ _ h
  rw [List.mem_reverse] at h2
  exact mem_dropWhile _ _ h2

/-- The symmetric character relation behind `noTwoSpaces`. -/
theorem noTwoSpaces_symm (a b : Char) (h : noTwoSpaces a b) : noTwoSpaces b a := by
  unfold noTwoSpaces at h ⊢
  exact fun hc => h ⟨hc.2, hc.1⟩

/-- Chains without adjacent whitespace are preserved by the final strip. -/
theorem chain'_py_strip {l : List Char} (h : List.Chain' noTwoSpaces l) :
    List.Chain' noTwoSpaces (py_strip_list l) := by
  unfold py_strip_list
  exact chain'_reverse_of_symm noTwoSpaces_symm _
    (chain'_dropWhile _ (chain'_reverse_of_symm noTwoSpaces_symm _ (chain'_dropWhile _ h)))

/-- A stripped list has no leading whitespace. -/
theorem py_strip_front (l : List Char) :
    (py_strip_list l).dropWhile py_space = py_strip_list l := by
  apply dropWhile_id_of_head
  intro c hc
  unfold py_strip_list at hc
  rcases hz : (l.dropWhile py_space).reverse.dropWhile py_space with _ | ⟨d, rest⟩
  · rw [hz] at hc; simp at hc
  · have hne : (l.dropWhile py_space).reverse.dropWhile py_space ≠ [] := by
      rw [hz]; exact List.cons_ne_nil d rest
    rw [hz] at hc
    have := rev_head_dropWhile (p := py_space) (l.dropWhile py_space).reverse hne
    rw [hz, List.reverse_reverse] at this
    rw [this] at hc
    exact head_dropWhile l c hc

/-- A stripped list has no trailing whitespace. -/
theorem py_strip_back (l : List Char) :
    (py_strip_list l).reverse.dropWhile py_space = (py_strip_list l).reverse := by
  unfold py_strip_list
  rw [List.reverse_reverse]
  exact List.dropWhile_idempotent py_space _

/-- Stripping is the identity on a list with no leading or trailing whitespace. -/
theorem py_strip_id (l : List Char) (h1 : l.dropWhile py_space = l)
    (h2 : l.reverse.dropWhile py_space = l.reverse) : py_strip_list l = l := by
  unfold py_strip_list
  rw [h1, h2, List.reverse_reverse]

/-- The symbol-deleting stages leave no stripped symbol behind. -/
theorem strip_symbols_no_bad (l : List Char) :
    ∀ c ∈ strip_symbols l, badChar c = false := by
  intro c hc
  unfold strip_symbols at hc
  simp only [List.mem_filter, Bool.not_eq_true', decide_eq_false_iff_not,
    Bool.or_eq_false_iff] at hc
  obtain ⟨⟨⟨⟨⟨⟨⟨-, h1⟩, h2⟩, h3⟩, h4⟩, h5a, h5b⟩, h6a, h6b⟩, h7a, h7b⟩ := hc
  unfold badChar
  simp [h1, h2, h3, h4, h5a, h5b, h6a, h6b, h7a, h7b]

/-- The symbol-deleting stages keep a character that is not a stripped symbol. -/
theorem strip_symbols_cons_keep (c : Char) (rest : List Char) (h : badChar c = false) :
    strip_symbols (c :: rest) = c :: strip_symbols rest := by
  unfold badChar at h
  simp only [Bool.or_eq_false_iff, decide_eq_false_iff_not] at h
  obtain ⟨⟨⟨⟨⟨⟨⟨⟨⟨n1, n2⟩, n3⟩, n4⟩, n5⟩, n6⟩, n7⟩, n8⟩, n9⟩, n10⟩ := h
  unfold strip_symbols
  simp [List.filter_cons, n1, n2, n3, n4, n5, n6, n7, n8, n9, n10]

/-- The symbol-deleting stages are the identity when no stripped symbol occurs. -/
theorem strip_symbols_id (l : List Char) (h : ∀ c ∈ l, badChar c = false) :
    strip_symbols l = l := by
  induction l with
  | nil => rfl
  | cons c rest ih =>
    rw [strip_symbols_cons_keep c rest (h c (List.mem_cons_self c rest)),
      ih (fun d hd => h d (List.mem_cons_of_mem c hd))]

/-- The sanitizer always produces a list in sanitized normal form. -/
theorem normalized_clean (l : List Char) : Normalized (clean_list l) := by
  unfold clean_list
  refine ⟨?_, ?_, ?_, py_strip_front _, py_strip_back _⟩
  · intro c hc
    have hb := mem_py_strip hc
    rcases collapseRuns_mem _ _ hb with h1 | ⟨h2, _⟩
    · subst h1; decide
    · rcases collapseRuns_mem _ _ h2 with h3 | ⟨h4, _⟩
      · subst h3; decide
      · exact strip_symbols_no_bad l c h4
  · intro c hc hsp
    have hb := mem_py_strip hc
    rcases collapseRuns_mem _ _ hb with h1 | ⟨_, h3⟩
    · exact h1
    · exact absurd hsp (by simp [h3])
  · have := collapseRuns_chain'
      (collapseRuns is_newline (strip_symbols l) false) (p := py_space) false
    exact chain'_py_strip this

/-- The sanitizer is the identity on sanitized normal forms. -/
theorem normalized_id (l : List Char) (h : Normalized l) : clean_list l = l := by
  obtain ⟨hnb, hsp, hch, hfront, hback⟩ := h
  unfold clean_list
  rw [strip_symbols_id l hnb]
  rw [collapseRuns_id_of_not l false (by
    intro c hc
    cases hnl : is_newline c with
    | true =>
      have : c = '\n' := by simpa [is_newline] using hnl
      subst this
      have : ('\n' : Char) = ' ' := hsp _ hc (by decide)
      exact absurd this (by decide)
    | false => rfl)]
  rw [collapseRuns_id_of_chain l false hsp hch (by intro hfalse; cases hfalse)]
  exact py_strip_id l hfront hback

/-- C8: the transcript text sanitizer is idempotent: cleaning a cleaned
string changes nothing. -/
theorem C8_clean_idempotent (s : String) :
    clean_voice_text (clean_voice_text s) = clean_voice_text s := by
  show String.mk (clean_list (clean_list s.data)) = String.mk (clean_list s.data)
  exact congrArg String.mk (normalized_id _ (normalized_clean s.data))

/-! ## Greeting fallback -/

/-- The default greeting is already in sanitized normal form, so the outer
sanitizing pass leaves it untouched. -/
theorem clean_default_greeting : clean_voice_text default_greeting = default_greeting := by
  decide

/-- C9: whether the exception escapes the reasoning-service call itself or is
raised inside it, the bridge configures the literal default greeting and no
error propagates (the greeting step is a total function into strings). -/
theorem C9_greeting_error_fallback (call_transcript : Option String) (e1 e2 : String) :
    generate_personalized_greeting call_transcript (.error e1) = default_greeting ∧
    generate_personalized_greeting call_transcript (.ok (.error e2)) = default_greeting := by
  cases call_transcript with
  | none => exact ⟨rfl, rfl⟩
  | some t =>
    by_cases ht : t = ""
    · simp [generate_personalized_greeting, ht]
    · simp [generate_personalized_greeting, ht, groq_generate_personalized_greeting,
        clean_default_greeting]

/-- C10: an absent or empty initial transcript yields the fixed default
greeting, and the result does not depend on the reasoning-service outcome at
all — the service is never consulted. -/
theorem C10_no_transcript_default
    (api_result : Except String (Except String (Option String))) :
    generate_personalized_greeting none api_result = default_greeting ∧
    generate_personalized_greeting (some "") api_result = default_greeting := by
  exact ⟨rfl, by simp [generate_personalized_greeting]⟩

/-! ## Classifier defaults -/

/-- C2 counterexample: a response string recognized as neither EMERGENCY nor
NON_EMERGENCY does not classify as an emergency — `classify_call` returns
`is_emergency = false` for it, so the fail-safe default does not apply to
unrecognized response strings. -/
theorem C2_counterexample_unrecognized_not_emergency :
    (classify_call "There is a strange smell in my building"
      (Except.ok "UNCLEAR")).classification ≠ "EMERGENCY" ∧
    (classify_call "There is a strange smell in my building"
      (Except.ok "UNCLEAR")).classification ≠ "NON_EMERGENCY" ∧
    (classify_call "There is a strange smell in my building"
      (Except.ok "UNCLEAR")).is_emergency = false := by
  refine ⟨by decide, by decide, by decide⟩

/-- C2 (amended): a raised exception during classification yields the
fail-safe `is_emergency = true`, but a response string recognized as neither
label yields `is_emergency = false` with low confidence — the fail-safe
default covers only the exception path. -/
theorem C2_amended_fail_safe (transcript e content : String)
    (h : py_upper (py_strip content) ≠ "EMERGENCY") :
    (classify_call transcript (Except.error e)).is_emergency = true ∧
    (classify_call transcript (Except.ok content)).is_emergency = false ∧
    (py_upper (py_strip content) ≠ "NON_EMERGENCY" →
      (classify_call transcript (Except.ok content)).confidence = "low") := by
  refine ⟨rfl, ?_, ?_⟩
  · show (py_upper (py_strip content) == "EMERGENCY") = false
    exact beq_eq_false_iff_ne.mpr h
  · intro h2
    show (if py_upper (py_strip content) = "EMERGENCY" ∨
        py_upper (py_strip content) = "NON_EMERGENCY" then "high" else "low") = "low"
    rw [if_neg]
    rintro (hx | hx)
    · exact h hx
    · exact h2 hx

/-- C2 witness: the amended statement at a concrete unrecognized response. -/
theorem C2_amended_fail_safe_witness :
    py_upper (py_strip "Possibly an emergency") ≠ "EMERGENCY" ∧
    ((classify_call "I smell smoke" (Except.error "timeout")).is_emergency = true ∧
      (classify_call "I smell smoke"
        (Except.ok "Possibly an emergency")).is_emergency = false ∧
      (py_upper (py_strip "Possibly an emergency") ≠ "NON_EMERGENCY" →
        (classify_call "I smell smoke"
          (Except.ok "Possibly an emergency")).confidence = "low")) :=
  ⟨by decide, C2_amended_fail_safe "I smell smoke" "timeout" "Possibly an emergency"
    (by decide)⟩

/-! ## Context window -/

/-- C7: for any number of recorded turns the context window holds at most
eleven entries — an optional leading initial-transcript turn plus at most the
last ten recorded turns, a suffix of the stored log (so their relative order
is preserved); the read is a pure view and the stored log is untouched. -/
theorem C7_context_window (call_transcript : Option String) (history : List Turn) :
    (get_conversation_context call_transcript history).length ≤ 11 ∧
    (∃ lead, lead.length ≤ 1 ∧
      get_conversation_context call_transcript history
        = lead ++ history.drop (history.length - 10)) ∧
    history.drop (history.length - 10) <:+ history ∧
    (history.drop (history.length - 10)).length ≤ 10 := by
  have hlead : (initial_context call_transcript).length ≤ 1 := by
    unfold initial_context
    cases call_transcript with
    | none => simp
    | some t => by_cases ht : t = "" <;> simp [ht]
  have hdrop : (history.drop (history.length - 10)).length ≤ 10 := by
    rw [List.length_drop]; omega
  refine ⟨?_, ⟨initial_context call_transcript, hlead, rfl⟩, List.drop_suffix _ _, hdrop⟩
  unfold get_conversation_context
  rw [List.length_append]
  omega

/-! ## The configuration message -/

/-- C1 counterexample: at a concrete call the configuration message carries
the greeting but has no context field under the agent object — the assembled
conversation context is not transmitted. -/
theorem C1_counterexample_no_context_field :
    ((config_message (some "my dog is stuck in a tree")
        [⟨"user", "Initial emergency description: my dog is stuck in a tree"⟩]
        "Hi, I heard about your dog.").lookup "agent").bind
      (fun a => a.lookup "context") = none ∧
    ((config_message (some "my dog is stuck in a tree")
        [⟨"user", "Initial emergency description: my dog is stuck in a tree"⟩]
        "Hi, I heard about your dog.").lookup "agent").bind
      (fun a => a.lookup "greeting") = some (.str "Hi, I heard about your dog.") :=
  ⟨rfl, rfl⟩

/-- C1 (amended): the initial configuration message carries the audio codec
parameters, the instruction prompt embedding the initial transcript, and the
greeting, but no conversation-context field: the window is assembled and then
dropped because the context line of the source is commented out. -/
theorem C1_amended_config (call_transcript : Option String)
    (conversation_context : List Turn) (greeting_message : String) :
    ((config_message call_transcript conversation_context greeting_message).lookup
        "agent").bind (fun a => a.lookup "context") = none ∧
    ((config_message call_transcript conversation_context greeting_message).lookup
        "agent").bind (fun a => a.lookup "greeting") = some (.str greeting_message) ∧
    ((config_message call_transcript conversation_context greeting_message).lookup
        "audio").bind (fun a => a.lookup "input")
      = some (.obj [("encoding", .str "mulaw"), ("sample_rate", .num 8000)]) ∧
    ((config_message call_transcript conversation_context greeting_message).lookup
        "audio").bind (fun a => a.lookup "output")
      = some (.obj [("encoding", .str "mulaw"), ("sample_rate", .num 8000),
          ("container", .str "none")]) ∧
    (((config_message call_transcript conversation_context greeting_message).lookup
        "agent").bind (fun a => a.lookup "think")).bind (fun t => t.lookup "prompt")
      = some (.str (think_prompt call_transcript)) :=
  ⟨rfl, rfl, rfl, rfl, rfl⟩

/-! ## Frame buffer -/

/-- Drain loop specification: with enough fuel, every emitted chunk has the
configured size, chunks plus remainder reassemble the buffer, and the
remainder is below one chunk. -/
theorem drain_go_spec : ∀ (fuel : Nat) (buf : List Nat), buf.length ≤ fuel →
    (∀ chunk ∈ (drain_go fuel buf).1, chunk.length = BUFFER_SIZE) ∧
    ((drain_go fuel buf).1).flatten ++ (drain_go fuel buf).2 = buf ∧
    ((drain_go fuel buf).2).length < BUFFER_SIZE := by
  intro fuel
  induction fuel with
  | zero =>
    intro buf h
    have hnil : buf = [] := List.eq_nil_of_length_eq_zero (Nat.le_zero.mp h)
    subst hnil
    exact ⟨by simp [drain_go], by simp [drain_go], by simp [drain_go]; decide⟩
  | succ fuel ih =>
    intro buf h
    have hB : BUFFER_SIZE = 3200 := rfl
    by_cases hb : BUFFER_SIZE ≤ buf.length
    · have hdrop : (buf.drop BUFFER_SIZE).length ≤ fuel := by
        rw [List.length_drop]; omega
      have ihd := ih (buf.drop BUFFER_SIZE) hdrop
      simp only [drain_go, if_pos hb]
      refine ⟨?_, ?_, ihd.2.2⟩
      · intro chunk hc
        rcases List.mem_cons.mp hc with hc | hc
        · subst hc
          rw [List.length_take]
          omega
        · exact ihd.1 chunk hc
      · rw [List.flatten_cons, List.append_assoc, ihd.2.1, List.take_append_drop]
    · simp only [drain_go, if_neg hb]
      exact ⟨by intro chunk hc; simp at hc, by simp, by omega⟩

/-- Draining specification, at the fuel the source loop actually gets. -/
theorem drain_buffer_spec (buf : List Nat) :
    (∀ chunk ∈ (drain_buffer buf).1, chunk.length = BUFFER_SIZE) ∧
    ((drain_buffer buf).1).flatten ++ (drain_buffer buf).2 = buf ∧
    ((drain_buffer buf).2).length < BUFFER_SIZE :=
  drain_go_spec _ _ (Nat.le_refl _)

/-- A buffer below the threshold drains to nothing. -/
theorem drain_buffer_small (buf : List Nat) (h : buf.length < BUFFER_SIZE) :
    drain_buffer buf = ([], buf) := by
  unfold drain_buffer
  rcases hl : buf.length with _ | n
  · rfl
  · simp only [drain_go, if_neg (by omega : ¬BUFFER_SIZE ≤ buf.length)]

/-- Appending spans and draining after each append: all chunks are full-size
and nothing is lost or reordered. -/
theorem process_spans_spec : ∀ (spans : List (List Nat)) (buf : List Nat),
    (∀ chunk ∈ (process_spans spans buf).1, chunk.length = BUFFER_SIZE) ∧
    ((process_spans spans buf).1).flatten ++ (process_spans spans buf).2
      = buf ++ spans.flatten := by
  intro spans
  induction spans with
  | nil => intro buf; exact ⟨by intro chunk hc; simp [process_spans] at hc, by simp [process_spans]⟩
  | cons s rest ih =>
    intro buf
    have hd := drain_buffer_spec (buf ++ s)
    constructor
    · intro chunk hc
      simp only [process_spans, List.mem_append] at hc
      rcases hc with hc | hc
      · exact hd.1 chunk hc
      · exact (ih _).1 chunk hc
    · show ((drain_buffer (buf ++ s)).1 ++
          (process_spans rest (drain_buffer (buf ++ s)).2).1).flatten ++
          (process_spans rest (drain_buffer (buf ++ s)).2).2 = buf ++ (s :: rest).flatten
      rw [List.flatten_append, List.append_assoc, (ih (drain_buffer (buf ++ s)).2).2,
        ← List.append_assoc, hd.2.1, List.flatten_cons, List.append_assoc]

/-- C3: every drained chunk has exactly the configured size
(`BUFFER_SIZE = 20 * 160` bytes) and the drained chunks followed by the bytes
still buffered reassemble exactly the appended bytes, in order — no partial
chunk is ever emitted. -/
theorem C3_frame_buffer (spans : List (List Nat)) :
    (∀ chunk ∈ (process_spans spans []).1, chunk.length = BUFFER_SIZE) ∧
    ((process_spans spans []).1).flatten ++ (process_spans spans []).2
      = spans.flatten := by
  have h := process_spans_spec spans []
  exact ⟨h.1, by simpa using h.2⟩

/-! ## Telephony inbound relay error handling -/

/-- C6 counterexample: a malformed transport message is fatal to the relay —
the start envelope following it is never processed (no stream id is
published), although the same start envelope alone is processed. -/
theorem C6_counterexample_malformed_fatal :
    (twilio_receiver [TwilioMsg.malformed, TwilioMsg.envelope (.start "MZ029")] []).sids
      = [] ∧
    (twilio_receiver [TwilioMsg.envelope (.start "MZ029")] []).sids = ["MZ029"] :=
  ⟨rfl, rfl⟩

/-- C6 (amended): an envelope whose type is unrecognized is ignored and the
relay continues with the subsequent messages, but a malformed message is
caught and breaks the relay loop: nothing after it is processed. -/
theorem C6_amended_ignore_unrecognized (ev : String) (rest : List TwilioMsg)
    (buf : List Nat) (h : buf.length < BUFFER_SIZE) :
    twilio_receiver (TwilioMsg.envelope (.other ev) :: rest) buf
      = twilio_receiver rest buf ∧
    twilio_receiver (TwilioMsg.malformed :: rest) buf = ⟨[], [], buf⟩ := by
  constructor
  · simp only [twilio_receiver, drain_buffer_small buf h, List.nil_append]
  · rfl

/-- C6 witness: the amended statement at a concrete unrecognized event and a
concrete malformed message. -/
theorem C6_amended_witness :
    ([] : List Nat).length < BUFFER_SIZE ∧
    (twilio_receiver [TwilioMsg.envelope (.other "mark"), TwilioMsg.envelope .stop] []
        = twilio_receiver [TwilioMsg.envelope .stop] [] ∧
      twilio_receiver [TwilioMsg.malformed, TwilioMsg.envelope .stop] [] = ⟨[], [], []⟩) :=
  ⟨by decide, C6_amended_ignore_unrecognized "mark" [TwilioMsg.envelope .stop] [] (by decide)⟩

/-! ## Bridge ordering lemmas -/

/-- Every envelope produced while releasing buffered backend messages carries
the stream id that released them. -/
theorem flush_pending_sid (streamsid : String) :
    ∀ (pend : List StsMsg) (history : List Turn) (o : TwilioOut),
      o ∈ (flush_pending streamsid history pend).2 → o.sid = streamsid := by
  intro pend
  induction pend with
  | nil => intro history o h; simp [flush_pending] at h
  | cons m rest ih =>
    intro history o h
    simp only [flush_pending, List.mem_append] at h
    rcases h with h | h
    · cases m with
      | text t => cases t <;> simp_all [process_sts_msg, TwilioOut.sid]
      | audio p => simp_all [process_sts_msg, TwilioOut.sid]
    · exact ih _ o h

/-- The stream-id slot is write-once: once filled it never changes. -/
theorem step_sid_mono (st : BridgeState) (i : BridgeInput) (s : String)
    (h : st.streamsid = some s) : (bridge_step st i).1.streamsid = some s := by
  cases i with
  | fromSts m => simp [bridge_step, h]
  | fromTwilio m =>
    unfold bridge_step twilio_step
    by_cases hstop : st.twilioStopped
    · simp [hstop, h]
    · cases m with
      | malformed => simp [hstop, h]
      | envelope e => cases e <;> simp [hstop, h]

/-- With the stream id known, every envelope emitted by a step carries it. -/
theorem step_outputs_sid (st : BridgeState) (i : BridgeInput) (s₀ : String)
    (h : st.streamsid = some s₀) (o : TwilioOut) (ho : o ∈ (bridge_step st i).2) :
    o.sid = s₀ := by
  cases i with
  | fromSts m =>
    cases m with
    | text t => cases t <;> simp_all [bridge_step, process_sts_msg, TwilioOut.sid]
    | audio p => simp_all [bridge_step, process_sts_msg, TwilioOut.sid]
  | fromTwilio m =>
    unfold bridge_step twilio_step at ho
    by_cases hstop : st.twilioStopped
    · simp [hstop] at ho
    · cases m with
      | malformed => simp [hstop] at ho
      | envelope e => cases e <;> simp_all [hstop, h]

/-- The only input that can fill an empty stream-id slot is the start
envelope carrying that id. -/
theorem step_sid_new (st : BridgeState) (i : BridgeInput) (s : String)
    (h0 : st.streamsid = none) (h1 : (bridge_step st i).1.streamsid = some s) :
    i = .fromTwilio (.envelope (.start s)) := by
  cases i with
  | fromSts m => simp [bridge_step, h0] at h1
  | fromTwilio m =>
    unfold bridge_step twilio_step at h1
    by_cases hstop : st.twilioStopped
    · simp [hstop, h0] at h1
    · cases m with
      | malformed => simp [hstop, h0] at h1
      | envelope e =>
        cases e with
        | start sid =>
          simp only [if_neg hstop, h0] at h1
          rw [Option.some_inj] at h1
          rw [h1]
        | connected => simp [hstop, h0] at h1
        | media track payload => simp [hstop, h0] at h1
        | stop => simp [hstop, h0] at h1
        | other ev => simp [hstop, h0] at h1

/-- With the stream id still unknown, a step that emits anything must itself
be the start envelope carrying the emitted id. -/
theorem step_outputs_none (st : BridgeState) (i : BridgeInput)
    (h0 : st.streamsid = none) (o : TwilioOut) (ho : o ∈ (bridge_step st i).2) :
    i = .fromTwilio (.envelope (.start o.sid)) := by
  cases i with
  | fromSts m => simp [bridge_step, h0] at ho
  | fromTwilio m =>
    unfold bridge_step twilio_step at ho
    by_cases hstop : st.twilioStopped
    · simp [hstop] at ho
    · cases m with
      | malformed => simp [hstop] at ho
      | envelope e =>
        cases e with
        | start sid =>
          simp only [if_neg hstop, h0] at ho
          rw [flush_pending_sid sid st.pending st.history o ho]
        | connected => simp [hstop] at ho
        | media track payload => simp [hstop] at ho
        | stop => simp [hstop] at ho
        | other ev => simp [hstop] at ho

/-- Once the stream id is known, every later emitted envelope carries it. -/
theorem outputs_sid_some : ∀ (inputs : List BridgeInput) (st : BridgeState) (s₀ : String),
    st.streamsid = some s₀ → ∀ (i : Nat) (out : List TwilioOut),
      (bridge_outputs st inputs).get? i = some out → ∀ o ∈ out, o.sid = s₀ := by
  intro inputs
  induction inputs with
  | nil => intro st s₀ h i out hout; simp [bridge_outputs] at hout
  | cons x rest ih =>
    intro st s₀ h i out hout o ho
    cases i with
    | zero =>
      simp only [bridge_outputs, List.get?_cons_zero, Option.some_inj] at hout
      subst hout
      exact step_outputs_sid st x s₀ h o ho
    | succ n =>
      simp only [bridge_outputs, List.get?_cons_succ] at hout
      exact ih _ s₀ (step_sid_mono st x s₀ h) n out hout o ho

/-- Starting with no stream id, any emitted envelope is preceded (or
accompanied, at its own step) by the start envelope carrying its id. -/
theorem outputs_sid_none : ∀ (inputs : List BridgeInput) (st : BridgeState),
    st.streamsid = none → ∀ (i : Nat) (out : List TwilioOut),
      (bridge_outputs st inputs).get? i = some out → ∀ o ∈ out,
        ∃ j, j ≤ i ∧ inputs.get? j = some (.fromTwilio (.envelope (.start o.sid))) := by
  intro inputs
  induction inputs with
  | nil => intro st h i out hout; simp [bridge_outputs] at hout
  | cons x rest ih =>
    intro st h i out hout o ho
    cases i with
    | zero =>
      simp only [bridge_outputs, List.get?_cons_zero, Option.some_inj] at hout
      subst hout
      exact ⟨0, Nat.le_refl 0, by rw [List.get?_cons_zero, step_outputs_none st x h o ho]⟩
    | succ n =>
      simp only [bridge_outputs, List.get?_cons_succ] at hout
      rcases hsid : (bridge_step st x).1.streamsid with _ | s₀
      · rcases ih _ hsid n out hout o ho with ⟨j, hj, hget⟩
        exact ⟨j + 1, Nat.succ_le_succ hj, by rw [List.get?_cons_succ]; exact hget⟩
      · have hx := step_sid_new st x s₀ h hsid
        have hosid : o.sid = s₀ := outputs_sid_some rest _ s₀ hsid n out hout o ho
        exact ⟨0, Nat.zero_le _, by rw [List.get?_cons_zero, hx, hosid]⟩

/-- C4: no media envelope is ever sent to the transport before the stream id
it carries has been observed from a start envelope of the telephony stream:
any forwarded audio at step i is preceded by a start envelope at some j ≤ i
(equality only for outputs released by the start envelope itself). -/
theorem C4_no_media_before_start (inputs : List BridgeInput) (i : Nat)
    (out : List TwilioOut) (s : String) (p : List Nat)
    (hout : (bridge_outputs initial_bridge_state inputs).get? i = some out)
    (hmem : TwilioOut.media s p ∈ out) :
    ∃ j, j ≤ i ∧ inputs.get? j = some (.fromTwilio (.envelope (.start s))) := by
  have h := outputs_sid_none inputs initial_bridge_state rfl i out hout
    (TwilioOut.media s p) hmem
  simpa [TwilioOut.sid] using h

/-- C4 witness: a start envelope then backend audio; the forwarded media at
step one is covered by the start at step zero. -/
theorem C4_witness :
    ((bridge_outputs initial_bridge_state
        [BridgeInput.fromTwilio (.envelope (.start "MZ007")),
          BridgeInput.fromSts (.audio [7, 7])]).get? 1
      = some [TwilioOut.media "MZ007" [7, 7]]) ∧
    TwilioOut.media "MZ007" [7, 7] ∈ [TwilioOut.media "MZ007" [7, 7]] ∧
    ∃ j, j ≤ 1 ∧
      ([BridgeInput.fromTwilio (.envelope (.start "MZ007")),
        BridgeInput.fromSts (.audio [7, 7])].get? j
        = some (.fromTwilio (.envelope (.start "MZ007")))) :=
  ⟨rfl, List.mem_singleton.mpr rfl,
    C4_no_media_before_start
      [BridgeInput.fromTwilio (.envelope (.start "MZ007")),
        BridgeInput.fromSts (.audio [7, 7])] 1
      [TwilioOut.media "MZ007" [7, 7]] "MZ007" [7, 7] rfl (List.mem_singleton.mpr rfl)⟩

/-- The outputs at position i are the outputs of one step taken from the
state reached by the first i inputs. -/
theorem outputs_get_eq : ∀ (inputs : List BridgeInput) (st : BridgeState) (i : Nat)
    (x : BridgeInput), inputs.get? i = some x →
    (bridge_outputs st inputs).get? i
      = some (bridge_step (bridge_run st (inputs.take i)) x).2 := by
  intro inputs
  induction inputs with
  | nil => intro st i x h; simp at h
  | cons y rest ih =>
    intro y0 i x h
    cases i with
    | zero =>
      rw [List.get?_cons_zero, Option.some_inj] at h
      subst h
      rfl
    | succ n =>
      rw [List.get?_cons_succ] at h
      show (bridge_outputs (bridge_step y0 y).1 rest).get? n = _
      rw [ih _ n x h]
      rfl

/-- A flattened list of per-step outputs splits around any one step. -/
theorem flatten_split {α : Type} : ∀ (L : List (List α)) (i : Nat) (l : List α),
    L.get? i = some l →
    L.flatten = (L.take i).flatten ++ l ++ (L.drop (i + 1)).flatten := by
  intro L
  induction L with
  | nil => intro i l h; simp at h
  | cons a rest ih =>
    intro i l h
    cases i with
    | zero =>
      rw [List.get?_cons_zero, Option.some_inj] at h
      subst h
      simp
    | succ n =>
      rw [List.get?_cons_succ] at h
      rw [List.flatten_cons, ih n l h, List.take_succ_cons, List.drop_succ_cons,
        List.flatten_cons, List.append_assoc, List.append_assoc, List.append_assoc]

/-- C5: a barge-in event received with the stream id known produces exactly
one clear envelope carrying that id and nothing else at its step, and every
envelope produced for a later-received backend message sits after it in the
output stream. -/
theorem C5_barge_in_clear (inputs : List BridgeInput) (i : Nat) (s : String)
    (hin : inputs.get? i = some (.fromSts (.text .userStartedSpeaking)))
    (hsid : (bridge_run initial_bridge_state (inputs.take i)).streamsid = some s) :
    (bridge_outputs initial_bridge_state inputs).get? i = some [TwilioOut.clear s] ∧
    (bridge_outputs initial_bridge_state inputs).flatten
      = ((bridge_outputs initial_bridge_state inputs).take i).flatten
        ++ TwilioOut.clear s
          :: ((bridge_outputs initial_bridge_state inputs).drop (i + 1)).flatten := by
  have hget := outputs_get_eq inputs initial_bridge_state i _ hin
  have hstep : (bridge_step (bridge_run initial_bridge_state (inputs.take i))
      (.fromSts (.text .userStartedSpeaking))).2 = [TwilioOut.clear s] := by
    simp [bridge_step, hsid, process_sts_msg]
  rw [hstep] at hget
  refine ⟨hget, ?_⟩
  have hsp := flatten_split (bridge_outputs initial_bridge_state inputs) i
    [TwilioOut.clear s] hget
  simpa using hsp

/-- C5 witness: start envelope then barge-in; the clear envelope with the
known id is the entire output of the barge-in step. -/
theorem C5_witness :
    ([BridgeInput.fromTwilio (.envelope (.start "MZ011")),
        BridgeInput.fromSts (.text .userStartedSpeaking)].get? 1
      = some (.fromSts (.text .userStartedSpeaking))) ∧
    ((bridge_run initial_bridge_state
        ([BridgeInput.fromTwilio (.envelope (.start "MZ011")),
          BridgeInput.fromSts (.text .userStartedSpeaking)].take 1)).streamsid
      = some "MZ011") ∧
    ((bridge_outputs initial_bridge_state
        [BridgeInput.fromTwilio (.envelope (.start "MZ011")),
          BridgeInput.fromSts (.text .userStartedSpeaking)]).get? 1
      = some [TwilioOut.clear "MZ011"] ∧
      (bridge_outputs initial_bridge_state
          [BridgeInput.fromTwilio (.envelope (.start "MZ011")),
            BridgeInput.fromSts (.text .userStartedSpeaking)]).flatten
        = ((bridge_outputs initial_bridge_state
            [BridgeInput.fromTwilio (.envelope (.start "MZ011")),
              BridgeInput.fromSts (.text .userStartedSpeaking)]).take 1).flatten
          ++ TwilioOut.clear "MZ011"
            :: ((bridge_outputs initial_bridge_state
              [BridgeInput.fromTwilio (.envelope (.start "MZ011")),
                BridgeInput.fromSts (.text .userStartedSpeaking)]).drop 2).flatten) :=
  ⟨rfl, rfl,
    C5_barge_in_clear
      [BridgeInput.fromTwilio (.envelope (.start "MZ011")),
        BridgeInput.fromSts (.text .userStartedSpeaking)] 1 "MZ011" rfl rfl⟩

end VoiceAgent
